import Mathlib

/-!
Shallow embedding of the build/launch layer of the vscode-makefile-tools
excerpt: `src/make.ts` (build-argument assembly, build-log-or-dry-run
selection, dry-run completion callback, pre-configure script runner) and
the launcher file (launch-configuration accessors, debugger selection in
`debugCurrentTarget`, terminal lifecycle in `runCurrentTarget` /
`onTerminalClose`).

External collaborators (the `path` node module, JS string/array methods,
the file system, the configuration provider) are modelled as explicit
function-valued environment fields or as small faithful Lean functions.
JS truthiness on `string | undefined` values is modelled on
`Option String`: `none` and `some ""` are falsy, everything else truthy.
-/

namespace MakefileTools

/-- JS `String.prototype.startsWith`: `pre` is a literal prefix of `s`. -/
def jsStartsWith (s pre : String) : Bool :=
  pre.data.isPrefixOf s.data

/-- JS `Array.prototype.join(sep)`: empty array gives `""`, otherwise the
elements separated by `sep`. -/
def jsJoin (sep : String) : List String → String
  | [] => ""
  | x :: xs => xs.foldl (fun acc s => acc ++ sep ++ s) x

/-- JS truthiness of a `string | undefined` value: `undefined` and `""` are
falsy. -/
def strTruthy : Option String → Bool
  | none => false
  | some s => !s.isEmpty

/-- JS `a || ""` on a `string | undefined` value `a`. -/
def jsOrEmpty : Option String → String
  | none => ""
  | some s => s

/-- The `name` and `dir` components of node `path.parse` that
`debugCurrentTarget` consumes. -/
structure ParsedPath where
  dir : String
  name : String
deriving DecidableEq

/-- Base component of a posix path: the part after the last `/`. -/
def pathBase (p : String) : String :=
  String.mk ((p.data.reverse.takeWhile (fun c => c ≠ '/')).reverse)

/-- Directory component of a posix path, following node `path.parse`:
everything before the last `/`, except that the root directory keeps its
slash and a path without a slash has dir `""`. -/
def pathDir (p : String) : String :=
  let rev := p.data.reverse
  let rest := rev.drop ((rev.takeWhile (fun c => c ≠ '/')).length)
  match rest with
  | [] => ""
  | [c] => String.mk [c]
  | _ :: ds => String.mk ds.reverse

/-- node `path.parse` name rule: strip the extension, which starts at the
last `.` of the base unless that dot is the base's first character. -/
def baseToName (base : String) : String :=
  let cs := base.data
  let extLen := (cs.reverse.takeWhile (fun c => c ≠ '.')).length
  if extLen = cs.length then base
  else if cs.length - extLen - 1 = 0 then base
  else String.mk (cs.take (cs.length - extLen - 1))

/-- node `path.parse`, restricted to the `dir` and `name` fields used by
the launcher (posix separator). -/
def pathParse (p : String) : ParsedPath :=
  { dir := pathDir p, name := baseToName (pathBase p) }

/-- node `path.join` of a directory and a relative name. -/
def pathJoin (dir name : String) : String :=
  if dir = "" then name
  else if dir.data.getLast? = some '/' then dir ++ name
  else dir ++ "/" ++ name

/-- Embeds `configuration.LaunchConfiguration`: the fields the launcher reads. -/
structure LaunchConfiguration where
  binary : String
  cwd : String
  args : List String
deriving DecidableEq

/-- Ambient state the launcher reads: the configuration provider, the
extension's compiler path, `process.platform`, `util.checkFileExistsSync`
and `vscode.workspace.rootPath`. -/
structure LaunchEnv where
  currentLaunchConfiguration : Option LaunchConfiguration
  compilerFullPath : Option String
  platform : String
  fileExists : String → Bool
  workspaceRootPath : Option String

/-- Embeds `Launcher.launchTargetPath`. -/
def launchTargetPath (env : LaunchEnv) : String :=
  match env.currentLaunchConfiguration with
  | some lc => lc.binary
  | none => ""

/-- Embeds `Launcher.launchCurrentDir`. -/
def launchCurrentDir (env : LaunchEnv) : String :=
  match env.currentLaunchConfiguration with
  | some lc => lc.cwd
  | none => jsOrEmpty env.workspaceRootPath

/-- Embeds `Launcher.launchTargetArgs`. -/
def launchTargetArgs (env : LaunchEnv) : List String :=
  match env.currentLaunchConfiguration with
  | some lc => lc.args
  | none => []

/-- Embeds `Launcher.launchTargetArgsConcat`: `launchTargetArgs().join(" ")`. -/
def launchTargetArgsConcat (env : LaunchEnv) : String :=
  jsJoin " " (launchTargetArgs env)

/-- Embeds `isClangCompiler`: `parsedObjPath?.name.startsWith("clang")`, with the
`undefined` (no compiler path) case falsy. -/
def isClangCompiler (parsed : Option ParsedPath) : Bool :=
  match parsed with
  | some p => jsStartsWith p.name "clang"
  | none => false

/-- Embeds `isMsvcCompiler`: `!isClangCompiler && parsedObjPath?.name.startsWith("cl")`. -/
def isMsvcCompiler (parsed : Option ParsedPath) : Bool :=
  !isClangCompiler parsed &&
    (match parsed with
     | some p => jsStartsWith p.name "cl"
     | none => false)

/-- Embeds `dbg`: `"cppvsdbg"` for the MSVC toolset, `"cppdbg"` otherwise. -/
def debuggerType (parsed : Option ParsedPath) : String :=
  if isMsvcCompiler parsed then "cppvsdbg" else "cppdbg"

/-- The first value of `miDebuggerPath`: the compiler's directory for a
non-MSVC compiler, `undefined` otherwise. -/
def initialMiDebuggerPath (parsed : Option ParsedPath) : Option String :=
  match parsed with
  | some p => if !isMsvcCompiler parsed then some p.dir else none
  | none => none

/-- The "initial debugger guess" for `miMode`: `lldb` for clang, nothing
for `cl`, `gdb` otherwise (also when there is no compiler path). -/
def initialMiMode (parsed : Option ParsedPath) : Option String :=
  if isClangCompiler parsed then some "lldb"
  else if !(match parsed with
            | some p => jsStartsWith p.name "cl"
            | none => false) then some "gdb"
  else none

/-- The candidate debugger executable: the directory joined with the mode
name, with `.exe` appended on Windows. This two-line computation appears
twice in `debugCurrentTarget` (the existence probe and the final
`miDebuggerPath`). -/
def candidateDebuggerPath (platform dir mode : String) : String :=
  let p := pathJoin dir mode
  if platform = "win32" then p ++ ".exe" else p

/-- The existence probe: if the first chosen debugger is not installed,
swap `gdb` and `lldb` once; guarded by the JS truthiness of
`miDebuggerPath && miMode`, so it is skipped when either is undefined or
the empty string (a compiler path with no directory component). -/
def probedMiMode (platform : String) (fileExists : String → Bool)
    (miDebuggerPath miMode : Option String) : Option String :=
  match miDebuggerPath, miMode with
  | some dir, some mode =>
    if dir.isEmpty || mode.isEmpty then some mode
    else if !fileExists (candidateDebuggerPath platform dir mode) then
      some (if mode = "gdb" then "lldb" else "gdb")
    else some mode
  | _, _ => miMode

/-- The final `miDebuggerPath`: intentionally `undefined` for lldb on
macOS; otherwise directory joined with the (possibly swapped) mode when
the guard `miDebuggerPath && miMode` is truthy, and left unchanged when
it is not (an empty directory stays the empty string, unjoined). -/
def finalMiDebuggerPath (platform : String)
    (miDebuggerPath miMode : Option String) : Option String :=
  if miMode = some "lldb" ∧ platform = "darwin" then none
  else
    match miDebuggerPath, miMode with
    | some dir, some mode =>
      if dir.isEmpty || mode.isEmpty then some dir
      else some (candidateDebuggerPath platform dir mode)
    | _, _ => miDebuggerPath

/-- The fields of the `vscode.DebugConfiguration` built by
`debugCurrentTarget` that vary with the input; the constant fields
(`name`, `request`, `cwd` and `program` command placeholders) are elided. -/
structure DebugConfig where
  type : String
  miMode : Option String
  miDebuggerPath : Option String
  args : List String
deriving DecidableEq

/-- Outcome of `Launcher.debugCurrentTarget`: either the early return with
a user-facing error and log entry because no launch configuration is set
(before any compiler-path parsing), or a started session with the
assembled debug configuration. -/
inductive DebugResult where
  | noLaunchConfig
  | launched (cfg : DebugConfig)
deriving DecidableEq

/-- Embeds `Launcher.debugCurrentTarget`. -/
def debugCurrentTarget (env : LaunchEnv) : DebugResult :=
  match env.currentLaunchConfiguration with
  | none => .noLaunchConfig
  | some _ =>
    let parsed : Option ParsedPath :=
      match env.compilerFullPath with
      | some p => if p.isEmpty then none else some (pathParse p)
      | none => none
    let miMode : Option String :=
      probedMiMode env.platform env.fileExists
        (initialMiDebuggerPath parsed) (initialMiMode parsed)
    .launched
      { type := debuggerType parsed
        miMode := miMode
        miDebuggerPath :=
          finalMiDebuggerPath env.platform (initialMiDebuggerPath parsed) miMode
        args := launchTargetArgs env }

/-- Handle state retained by the launcher for "run in terminal": the
stored `launchTerminal` (terminal handles are modelled as `Nat` identities)
and the identity `vscode.window.createTerminal` would allocate next. -/
structure TerminalState where
  launchTerminal : Option Nat
  nextTerminalId : Nat
deriving DecidableEq

/-- The `onDidCloseTerminal` watcher: reset the stored handle only when
the closed terminal is the retained one. -/
def onTerminalClose (st : TerminalState) (term : Nat) : TerminalState :=
  if st.launchTerminal = some term then { st with launchTerminal := none }
  else st

/-- Outcome of `Launcher.runCurrentTarget`: the returned terminal, whether
`createTerminal` ran, the text sent to it (if any), whether the
no-launch-configuration error was shown, and the updated handle state. -/
structure RunResult where
  terminal : Nat
  createdNew : Bool
  sentText : Option String
  errorShown : Bool
  newState : TerminalState

/-- Embeds `Launcher.runCurrentTarget`: reuse or lazily create the terminal, then
either abort with an error (no launch configuration) or send the quoted
binary path followed by the joined arguments. -/
def runCurrentTarget (env : LaunchEnv) (st : TerminalState) : RunResult :=
  let fresh := st.launchTerminal.isNone
  let term := match st.launchTerminal with
    | some t => t
    | none => st.nextTerminalId
  let st1 : TerminalState :=
    if fresh then
      { launchTerminal := some st.nextTerminalId
        nextTerminalId := st.nextTerminalId + 1 }
    else st
  match env.currentLaunchConfiguration with
  | none =>
    { terminal := term, createdNew := fresh, sentText := none
      errorShown := true, newState := st1 }
  | some _ =>
    let cmd := "\"" ++ launchTargetPath env ++ "\" " ++
      jsJoin " " (launchTargetArgs env)
    { terminal := term, createdNew := fresh, sentText := some cmd
      errorShown := false, newState := st1 }

/-- Ambient state read by `make.ts`: the configuration provider plus the
`util.readFile` and `util.checkFileExistsSync` file primitives. `readFile`
returns `none` when the file cannot be read. -/
structure MakeEnv where
  currentTarget : Option String
  configurationMakeArgs : List String
  dryRunSwitches : Option (List String)
  buildLog : Option String
  dryrunCache : String
  makeCommand : String
  readFile : String → Option String

/-- Embeds `prepareBuildCurrentTarget`: the target (when truthy) prepended to the
configured make arguments. -/
def prepareBuildCurrentTarget (currentTarget : Option String)
    (configurationMakeArgs : List String) : List String :=
  let makeArgs : List String :=
    match currentTarget with
    | some t => if t.isEmpty then [] else [t]
    | none => []
  makeArgs ++ configurationMakeArgs

/-- The dry-run argument assembly of `parseBuildOrDryRun`: target (when
truthy), configured make arguments, `--dry-run`, then the dry-run switches
when defined. -/
def dryRunMakeArgs (currentTarget : Option String)
    (configurationMakeArgs : List String)
    (dryRunSwitches : Option (List String)) : List String :=
  let makeArgs := prepareBuildCurrentTarget currentTarget configurationMakeArgs
  let makeArgs := makeArgs ++ ["--dry-run"]
  match dryRunSwitches with
  | some switches => makeArgs ++ switches
  | none => makeArgs

/-- The assembled argument list as the spec's formula states it:
`[target?] ++ configuredArgs ++ (dryRun ? ["--dry-run"] ++ extraFlags : [])`.
Spec-side definition, for comparison with the source-side assembly. -/
def assembleArgsSpec (target : Option String) (configuredArgs : List String)
    (dryRun : Bool) (extraFlags : List String) : List String :=
  target.toList ++ configuredArgs ++
    (if dryRun then ["--dry-run"] ++ extraFlags else [])

/-- Embeds `parseBuild`: `some content` models the `true` return after
`ext.updateProvider(content)` ran on the build log's contents; `none`
models the `false` return (no truthy log path or no truthy contents). -/
def parseBuild (env : MakeEnv) : Option String :=
  match env.buildLog with
  | none => none
  | some log =>
    if log.isEmpty then none
    else
      match env.readFile log with
      | none => none
      | some content => if content.isEmpty then none else some content

/-- What `parseBuildOrDryRun` does before waiting on the spawned process:
either the build log was parsed (and it returns with no spawn), or the
dry-run make command is spawned with the assembled arguments. -/
inductive IntelliSenseSource where
  | fromLog (content : String)
  | fromDryRun (command : String) (args : List String)
deriving DecidableEq

/-- Embeds `parseBuildOrDryRun`, up to the spawn decision. -/
def parseBuildOrDryRun (env : MakeEnv) : IntelliSenseSource :=
  match parseBuild env with
  | some content => .fromLog content
  | none =>
    .fromDryRun env.makeCommand
      (dryRunMakeArgs env.currentTarget env.configurationMakeArgs
        env.dryRunSwitches)

/-- Observable effects of the dry-run `closing` callback, in order; the
two `logger.message` calls of the failure branch are elided. -/
inductive DryRunEvent where
  | reportDryRunError
  | writeCache (path content : String)
  | updateProvider (content : String)
deriving DecidableEq

/-- The `closing` callback of `parseBuildOrDryRun`: on a non-zero exit
code the dry-run error is reported; the cache write and provider update
happen on every exit code. -/
def dryRunClosing (retCode : Int) (stdoutStr : String)
    (dryrunCache : String) : List DryRunEvent :=
  (if retCode ≠ 0 then [DryRunEvent.reportDryRunError] else []) ++
    [DryRunEvent.writeCache dryrunCache stdoutStr,
     DryRunEvent.updateProvider stdoutStr]

/-- Ambient state read by `runPreconfigureScript`. -/
structure PreconfigureEnv where
  preconfigureScript : Option String
  fileExists : String → Bool
  platform : String

/-- Outcome of `runPreconfigureScript`: either the early return showing a
user-facing error and a log entry (no spawn, nothing thrown), or the
spawn of the platform shell with the script arguments. -/
inductive PreconfigureResult where
  | errorShown
  | spawned (command : String) (args : List String)
deriving DecidableEq

/-- Embeds `runPreconfigureScript`, up to the spawn decision. -/
def runPreconfigureScript (env : PreconfigureEnv) : PreconfigureResult :=
  match env.preconfigureScript with
  | none => .errorShown
  | some script =>
    if script.isEmpty then .errorShown
    else if !env.fileExists script then .errorShown
    else if env.platform = "win32" then .spawned "cmd" ["/c", script]
    else .spawned "/bin/bash" ["-c", "\"source " ++ script ++ "\""]

/-- Scenario environment from the spec: compiler `/usr/bin/gcc`,
`/usr/bin/gdb` absent, `/usr/bin/lldb` present, non-Windows non-macOS
platform, with a launch configuration selected. -/
def envGccMissingGdb : LaunchEnv :=
  { currentLaunchConfiguration :=
      some { binary := "/work/app", cwd := "/work", args := [] }
    compilerFullPath := some "/usr/bin/gcc"
    platform := "linux"
    fileExists := fun s => s == "/usr/bin/lldb"
    workspaceRootPath := some "/work" }

/-- Scenario environment: compiler configured by bare name `gcc`, so its
parsed directory component is empty; the file `gdb` does not exist while
`lldb` does; a launch configuration is selected. -/
def envBareGcc : LaunchEnv :=
  { currentLaunchConfiguration :=
      some { binary := "/work/app", cwd := "/work", args := [] }
    compilerFullPath := some "gcc"
    platform := "linux"
    fileExists := fun s => s == "lldb"
    workspaceRootPath := some "/work" }

/-- Scenario environment: clang compiler on macOS with every probed file
present, with a launch configuration selected. -/
def envClangDarwin : LaunchEnv :=
  { currentLaunchConfiguration :=
      some { binary := "/work/app", cwd := "/work", args := [] }
    compilerFullPath := some "/usr/bin/clang"
    platform := "darwin"
    fileExists := fun _ => true
    workspaceRootPath := some "/work" }

/-- The debug configuration `debugCurrentTarget` assembles for
`envClangDarwin`. -/
def cfgClangDarwin : DebugConfig :=
  { type := "cppdbg", miMode := some "lldb", miDebuggerPath := none
    args := [] }

/-- Environment with no launch configuration selected, used for the
precondition-failure scenarios. -/
def envNoConfig : LaunchEnv :=
  { currentLaunchConfiguration := none
    compilerFullPath := some "/usr/bin/gcc"
    platform := "linux"
    fileExists := fun _ => true
    workspaceRootPath := some "/work" }

/-- Environment whose launch configuration carries two arguments. -/
def envTwoArgs : LaunchEnv :=
  { currentLaunchConfiguration :=
      some { binary := "/work/app", cwd := "/work", args := ["alpha", "beta"] }
    compilerFullPath := none
    platform := "linux"
    fileExists := fun _ => true
    workspaceRootPath := some "/work" }

/-- Make environment with a configured, readable, non-empty build log. -/
def envWithBuildLog : MakeEnv :=
  { currentTarget := some "all"
    configurationMakeArgs := ["-f", "makefile"]
    dryRunSwitches := some ["-k"]
    buildLog := some "/work/build.log"
    dryrunCache := "/work/dryrun.cache"
    makeCommand := "make"
    readFile := fun s => if s == "/work/build.log" then some "gcc -c a.c" else none }

/-! Helper lemmas. -/

theorem foldl_append_eq_intercalate_go (sep : String) (xs : List String)
    (acc : String) :
    xs.foldl (fun acc s => acc ++ sep ++ s) acc =
      String.intercalate.go acc sep xs := by
  induction xs generalizing acc with
  | nil => rfl
  | cons a as ih =>
    simp only [List.foldl_cons, String.intercalate.go, ih]

theorem jsJoin_eq_intercalate (sep : String) (xs : List String) :
    jsJoin sep xs = String.intercalate sep xs := by
  cases xs with
  | nil => rfl
  | cons x rest =>
    simp only [jsJoin, String.intercalate, foldl_append_eq_intercalate_go]

/-! Claim theorems. -/

/-- C1: the debugger classification in `debugCurrentTarget`: a compiler
whose parsed base name begins with `clang` gets backend `lldb` under type
`cppdbg`; otherwise a name beginning with `cl` gets type `cppvsdbg` with
`miMode` and `miDebuggerPath` left undefined; every other name falls back
to `gdb` under type `cppdbg`. -/
theorem debugger_classification (p : String) :
    (jsStartsWith (pathParse p).name "clang" = true →
      debuggerType (some (pathParse p)) = "cppdbg" ∧
      initialMiMode (some (pathParse p)) = some "lldb")
  ∧ (jsStartsWith (pathParse p).name "clang" = false →
      jsStartsWith (pathParse p).name "cl" = true →
      debuggerType (some (pathParse p)) = "cppvsdbg" ∧
      initialMiMode (some (pathParse p)) = none ∧
      initialMiDebuggerPath (some (pathParse p)) = none)
  ∧ (jsStartsWith (pathParse p).name "clang" = false →
      jsStartsWith (pathParse p).name "cl" = false →
      debuggerType (some (pathParse p)) = "cppdbg" ∧
      initialMiMode (some (pathParse p)) = some "gdb") := by
  refine ⟨fun h1 => ?_, fun h1 h2 => ?_, fun h1 h2 => ?_⟩
  · simp [debuggerType, initialMiMode, initialMiDebuggerPath,
      isMsvcCompiler, isClangCompiler, h1]
  · simp [debuggerType, initialMiMode, initialMiDebuggerPath,
      isMsvcCompiler, isClangCompiler, h1, h2]
  · simp [debuggerType, initialMiMode, initialMiDebuggerPath,
      isMsvcCompiler, isClangCompiler, h1, h2]

/-- Witness for C1 at the unrecognized compiler name `gcc`. -/
theorem debugger_classification_witness :
    debuggerType (some (pathParse "/usr/bin/gcc")) = "cppdbg" ∧
    initialMiMode (some (pathParse "/usr/bin/gcc")) = some "gdb" :=
  (debugger_classification "/usr/bin/gcc").2.2 (by decide) (by decide)

/-- C2 counterexample: for the bare compiler name `gcc` the parsed
directory component is empty, so the JS guard `miDebuggerPath && miMode`
is falsy and the existence probe is skipped: although the chosen `gdb`
does not exist on disk and `lldb` does, the mode is never swapped (and
the empty directory is kept unjoined). -/
theorem probe_skipped_bare_compiler_cex :
    debugCurrentTarget envBareGcc =
      DebugResult.launched
        { type := "cppdbg", miMode := some "gdb"
          miDebuggerPath := some "", args := [] }
  ∧ probedMiMode "linux" envBareGcc.fileExists (some "") (some "gdb") ≠
      some "lldb" :=
  ⟨by decide, by decide⟩

/-- C2 (amended): for a non-MSVC compiler whose path has a non-empty
directory component, when the first chosen debugger executable is missing
the mode is swapped exactly once (`gdb` ↔ `lldb`); the result does not
depend on the file system beyond the first candidate probe (no second
probe happens even if the alternate is also missing); the final debugger
path is recomputed under the swapped name (outside the macOS/lldb
exception); and in the concrete scenario `/usr/bin/gcc` with
`/usr/bin/gdb` absent and `/usr/bin/lldb` present the outcome is backend
`lldb` with path `/usr/bin/lldb`. -/
theorem probe_one_shot_fallback (platform dir mode : String)
    (fe fe' : String → Bool)
    (hdir : dir ≠ "")
    (hmode : mode = "gdb" ∨ mode = "lldb")
    (hmiss : fe (candidateDebuggerPath platform dir mode) = false)
    (hmiss' : fe' (candidateDebuggerPath platform dir mode) = false) :
    (probedMiMode platform fe (some dir) (some mode) =
      some (if mode = "gdb" then "lldb" else "gdb"))
  ∧ (probedMiMode platform fe' (some dir) (some mode) =
      probedMiMode platform fe (some dir) (some mode))
  ∧ (¬((if mode = "gdb" then "lldb" else "gdb") = "lldb" ∧
        platform = "darwin") →
      finalMiDebuggerPath platform (some dir)
        (probedMiMode platform fe (some dir) (some mode)) =
      some (candidateDebuggerPath platform dir
        (if mode = "gdb" then "lldb" else "gdb")))
  ∧ debugCurrentTarget envGccMissingGdb =
      DebugResult.launched
        { type := "cppdbg", miMode := some "lldb"
          miDebuggerPath := some "/usr/bin/lldb", args := [] } := by
  have hdirE : dir.isEmpty = false := by
    cases hq : dir.isEmpty
    · rfl
    · exact absurd ((String.isEmpty_iff dir).mp hq) hdir
  have hg : ("gdb" : String).isEmpty = false := by decide
  have hl : ("lldb" : String).isEmpty = false := by decide
  refine ⟨?_, ?_, ?_, by decide⟩
  · rcases hmode with rfl | rfl <;>
      simp [probedMiMode, hdirE, hg, hl, hmiss]
  · rcases hmode with rfl | rfl <;>
      simp [probedMiMode, hdirE, hg, hl, hmiss, hmiss']
  · intro hexc
    rcases hmode with rfl | rfl
    · have hd : ¬platform = "darwin" := by
        intro hp
        exact hexc (by simp [hp])
      simp [probedMiMode, hdirE, hg, hl, hmiss, finalMiDebuggerPath, hd]
    · simp [probedMiMode, hdirE, hg, hl, hmiss, finalMiDebuggerPath]

/-- Witness for C2 in the gcc scenario. -/
theorem probe_one_shot_fallback_witness :
    probedMiMode "linux" (fun s => s == "/usr/bin/lldb")
      (some "/usr/bin") (some "gdb") =
      some (if "gdb" = "gdb" then "lldb" else "gdb") ∧
    debugCurrentTarget envGccMissingGdb =
      DebugResult.launched
        { type := "cppdbg", miMode := some "lldb"
          miDebuggerPath := some "/usr/bin/lldb", args := [] } :=
  let h := probe_one_shot_fallback "linux" "/usr/bin" "gdb"
    (fun s => s == "/usr/bin/lldb") (fun _ => false) (by decide)
    (by decide) (by decide) (by decide)
  ⟨h.1, h.2.2.2⟩

/-- C3 counterexample: with a present-but-empty target the source-side
assembly drops the target (JS truthiness), while the claim's formula
prepends it. -/
theorem assemble_args_empty_target_cex :
    prepareBuildCurrentTarget (some "") ["-j"] ≠
      assembleArgsSpec (some "") ["-j"] false [] := by
  decide

/-- C3 (amended): for every target other than the present-but-empty one,
the assembled make argument list is the optional target first, then the
configured make arguments verbatim, then — only for a dry run —
`--dry-run` followed by the configured dry-run switches in order. -/
theorem assemble_args_eq_spec (target : Option String)
    (configuredArgs : List String) (switches : Option (List String))
    (ht : target ≠ some "") :
    prepareBuildCurrentTarget target configuredArgs =
      assembleArgsSpec target configuredArgs false []
  ∧ dryRunMakeArgs target configuredArgs switches =
      assembleArgsSpec target configuredArgs true (switches.getD []) := by
  have hbase : prepareBuildCurrentTarget target configuredArgs =
      target.toList ++ configuredArgs := by
    cases target with
    | none => simp [prepareBuildCurrentTarget]
    | some t =>
      have hne : ¬t.isEmpty := by
        simp only [String.isEmpty_iff]
        intro h
        exact ht (by rw [h])
      simp [prepareBuildCurrentTarget, hne]
  refine ⟨?_, ?_⟩
  · simp [assembleArgsSpec, hbase]
  · cases switches with
    | none => simp [dryRunMakeArgs, assembleArgsSpec, hbase]
    | some s => simp [dryRunMakeArgs, assembleArgsSpec, hbase]

/-- Witness for C3's amended theorem at a concrete target and switches. -/
theorem assemble_args_eq_spec_witness :
    prepareBuildCurrentTarget (some "all") ["-f", "makefile"] =
      assembleArgsSpec (some "all") ["-f", "makefile"] false []
  ∧ dryRunMakeArgs (some "all") ["-f", "makefile"] (some ["-k"]) =
      assembleArgsSpec (some "all") ["-f", "makefile"] true
        ((some ["-k"]).getD []) :=
  assemble_args_eq_spec (some "all") ["-f", "makefile"] (some ["-k"])
    (by decide)

/-- C4: when a build log is configured, readable and non-empty,
`parseBuildOrDryRun` hands the log contents to the IntelliSense sink and
never reaches the dry-run spawn. -/
theorem build_log_short_circuits_dry_run (env : MakeEnv)
    (log content : String)
    (hlog : env.buildLog = some log) (hlogne : log ≠ "")
    (hread : env.readFile log = some content) (hcontne : content ≠ "") :
    parseBuildOrDryRun env = IntelliSenseSource.fromLog content
  ∧ ∀ cmd args, parseBuildOrDryRun env ≠
      IntelliSenseSource.fromDryRun cmd args := by
  have hl : ¬log.isEmpty := by
    simp only [String.isEmpty_iff]
    exact hlogne
  have hc : ¬content.isEmpty := by
    simp only [String.isEmpty_iff]
    exact hcontne
  have hpb : parseBuild env = some content := by
    simp [parseBuild, hlog, hread, hl, hc]
  refine ⟨?_, ?_⟩
  · simp [parseBuildOrDryRun, hpb]
  · intro cmd args
    simp [parseBuildOrDryRun, hpb]

/-- Witness for C4 on a concrete environment with a non-empty build log. -/
theorem build_log_short_circuits_dry_run_witness :
    parseBuildOrDryRun envWithBuildLog =
      IntelliSenseSource.fromLog "gcc -c a.c" :=
  (build_log_short_circuits_dry_run envWithBuildLog "/work/build.log"
    "gcc -c a.c" rfl (by decide) (by decide) (by decide)).1

/-- C5: whenever `debugCurrentTarget` ends with mode `lldb` on macOS the
assembled `miDebuggerPath` is undefined regardless of the file system;
every other platform/mode combination with a present directory keeps a
resolved path (never discards it to undefined), and with a non-empty
directory and mode that path is the directory joined with the mode name. -/
theorem mac_lldb_path_unresolved (env : LaunchEnv) (cfg : DebugConfig)
    (platform dir mode : String)
    (hplat : env.platform = "darwin")
    (hrun : debugCurrentTarget env = DebugResult.launched cfg)
    (hmode : cfg.miMode = some "lldb")
    (hother : ¬(mode = "lldb" ∧ platform = "darwin")) :
    cfg.miDebuggerPath = none
  ∧ (finalMiDebuggerPath platform (some dir) (some mode)).isSome = true
  ∧ (dir ≠ "" → mode ≠ "" →
      finalMiDebuggerPath platform (some dir) (some mode) =
        some (candidateDebuggerPath platform dir mode)) := by
  refine ⟨?_, ?_, ?_⟩
  · simp only [debugCurrentTarget] at hrun
    cases hc : env.currentLaunchConfiguration with
    | none => rw [hc] at hrun; simp at hrun
    | some lc =>
      rw [hc] at hrun
      simp only [DebugResult.launched.injEq] at hrun
      subst hrun
      simp only at hmode
      rw [hplat] at hmode
      simp only [hplat]
      simp [finalMiDebuggerPath, hmode]
  · by_cases he : dir.isEmpty || mode.isEmpty <;>
      simp [finalMiDebuggerPath, hother, he]
  · intro hd hm
    have hdE : dir.isEmpty = false := by
      cases hq : dir.isEmpty
      · rfl
      · exact absurd ((String.isEmpty_iff dir).mp hq) hd
    have hmE : mode.isEmpty = false := by
      cases hq : mode.isEmpty
      · rfl
      · exact absurd ((String.isEmpty_iff mode).mp hq) hm
    simp [finalMiDebuggerPath, hother, hdE, hmE]

/-- Witness for C5: clang on macOS yields an unresolved debugger path even
though every file exists; gdb on linux keeps the resolved directory. -/
theorem mac_lldb_path_unresolved_witness :
    cfgClangDarwin.miDebuggerPath = none
  ∧ (finalMiDebuggerPath "linux" (some "/usr/bin") (some "gdb")).isSome =
      true
  ∧ finalMiDebuggerPath "linux" (some "/usr/bin") (some "gdb") =
      some (candidateDebuggerPath "linux" "/usr/bin" "gdb") :=
  let h := mac_lldb_path_unresolved envClangDarwin cfgClangDarwin "linux"
    "/usr/bin" "gdb" rfl (by decide) rfl (by decide)
  ⟨h.1, h.2.1, h.2.2 (by decide) (by decide)⟩

/-- C6: the dry-run `closing` callback writes the captured stdout to the
cache and hands it to the IntelliSense sink on every exit code, and raises
the dry-run error signal exactly once on a non-zero exit code and never on
a zero one. -/
theorem dry_run_closing_effects (retCode : Int) (stdoutStr cache : String) :
    DryRunEvent.writeCache cache stdoutStr ∈
      dryRunClosing retCode stdoutStr cache
  ∧ DryRunEvent.updateProvider stdoutStr ∈
      dryRunClosing retCode stdoutStr cache
  ∧ (dryRunClosing retCode stdoutStr cache).count
      DryRunEvent.reportDryRunError = (if retCode = 0 then 0 else 1) := by
  by_cases h : retCode = 0 <;>
    simp [dryRunClosing, h, List.count_cons]

/-- C7: with no pre-configure script path configured, or a configured path
missing on disk, `runPreconfigureScript` takes the error return (user
message plus log entry) and spawns nothing. -/
theorem preconfigure_missing_script_errors (env : PreconfigureEnv)
    (h : env.preconfigureScript = none ∨
      ∃ s, env.preconfigureScript = some s ∧ env.fileExists s = false) :
    runPreconfigureScript env = PreconfigureResult.errorShown := by
  rcases h with h | ⟨s, hs, hmiss⟩
  · simp [runPreconfigureScript, h]
  · by_cases he : s.isEmpty <;>
      simp [runPreconfigureScript, hs, hmiss, he]

/-- Witness for C7 with the script path unset. -/
theorem preconfigure_missing_script_errors_witness :
    runPreconfigureScript
      { preconfigureScript := none, fileExists := fun _ => true
        platform := "linux" } = PreconfigureResult.errorShown :=
  preconfigure_missing_script_errors
    { preconfigureScript := none, fileExists := fun _ => true
      platform := "linux" } (Or.inl rfl)

/-- C8: with no launch configuration selected, `debugCurrentTarget` takes
the early error return before any compiler-path parsing, and
`runCurrentTarget` shows the error and sends no text to the terminal. -/
theorem no_launch_config_aborts (env : LaunchEnv) (st : TerminalState)
    (h : env.currentLaunchConfiguration = none) :
    debugCurrentTarget env = DebugResult.noLaunchConfig
  ∧ (runCurrentTarget env st).errorShown = true
  ∧ (runCurrentTarget env st).sentText = none := by
  refine ⟨?_, ?_, ?_⟩ <;>
    simp [debugCurrentTarget, runCurrentTarget, h]

/-- Witness for C8 on a concrete environment without a launch
configuration. -/
theorem no_launch_config_aborts_witness :
    debugCurrentTarget envNoConfig = DebugResult.noLaunchConfig
  ∧ (runCurrentTarget envNoConfig
      { launchTerminal := none, nextTerminalId := 0 }).errorShown = true
  ∧ (runCurrentTarget envNoConfig
      { launchTerminal := none, nextTerminalId := 0 }).sentText = none :=
  no_launch_config_aborts envNoConfig
    { launchTerminal := none, nextTerminalId := 0 } rfl

/-- C9: closing the retained terminal resets the stored handle, closing
any other terminal leaves it unchanged, and after the reset the next
`runCurrentTarget` creates a fresh terminal rather than using the closed
one. -/
theorem terminal_close_resets_handle (st : TerminalState) (t u : Nat)
    (env : LaunchEnv)
    (hret : st.launchTerminal = some t)
    (halloc : t < st.nextTerminalId)
    (hne : u ≠ t) :
    (onTerminalClose st t).launchTerminal = none
  ∧ (onTerminalClose st u).launchTerminal = some t
  ∧ (runCurrentTarget env (onTerminalClose st t)).createdNew = true
  ∧ (runCurrentTarget env (onTerminalClose st t)).terminal ≠ t := by
  have hclose : onTerminalClose st t =
      { st with launchTerminal := none } := by
    simp [onTerminalClose, hret]
  refine ⟨by simp [hclose], ?_, ?_, ?_⟩
  · have htu : ¬t = u := fun h => hne h.symm
    simp [onTerminalClose, hret, htu]
  · rw [hclose]
    cases hc : env.currentLaunchConfiguration <;>
      simp [runCurrentTarget, hc]
  · rw [hclose]
    cases hc : env.currentLaunchConfiguration <;>
      simp [runCurrentTarget, hc] <;>
      exact Nat.ne_of_gt halloc

/-- Witness for C9 with terminal 0 retained and terminal 5 closed. -/
theorem terminal_close_resets_handle_witness :
    (onTerminalClose { launchTerminal := some 0, nextTerminalId := 1 }
      0).launchTerminal = none
  ∧ (onTerminalClose { launchTerminal := some 0, nextTerminalId := 1 }
      5).launchTerminal = some 0
  ∧ (runCurrentTarget envTwoArgs
      (onTerminalClose { launchTerminal := some 0, nextTerminalId := 1 }
        0)).createdNew = true
  ∧ (runCurrentTarget envTwoArgs
      (onTerminalClose { launchTerminal := some 0, nextTerminalId := 1 }
        0)).terminal ≠ 0 :=
  terminal_close_resets_handle
    { launchTerminal := some 0, nextTerminalId := 1 } 0 5 envTwoArgs
    rfl (by decide) (by decide)

/-- C10: with no launch configuration the accessors return fixed defaults
(empty path, the workspace root or empty directory, empty argument list),
and the concatenated-argument accessor always equals the argument list
joined with single spaces. -/
theorem launch_accessor_defaults (env envB : LaunchEnv) (root : String)
    (h : env.currentLaunchConfiguration = none) :
    launchTargetPath env = ""
  ∧ (env.workspaceRootPath = some root → launchCurrentDir env = root)
  ∧ (env.workspaceRootPath = none → launchCurrentDir env = "")
  ∧ launchTargetArgs env = []
  ∧ launchTargetArgsConcat envB =
      String.intercalate " " (launchTargetArgs envB) := by
  refine ⟨?_, ?_, ?_, ?_, jsJoin_eq_intercalate " " (launchTargetArgs envB)⟩
  · simp [launchTargetPath, h]
  · intro hr
    simp [launchCurrentDir, h, hr, jsOrEmpty]
  · intro hr
    simp [launchCurrentDir, h, hr, jsOrEmpty]
  · simp [launchTargetArgs, h]

/-- Witness for C10 on concrete environments. -/
theorem launch_accessor_defaults_witness :
    launchTargetPath envNoConfig = ""
  ∧ launchCurrentDir envNoConfig = "/work"
  ∧ launchTargetArgs envNoConfig = []
  ∧ launchTargetArgsConcat envTwoArgs =
      String.intercalate " " (launchTargetArgs envTwoArgs) :=
  let h := launch_accessor_defaults envNoConfig envTwoArgs "/work" rfl
  ⟨h.1, h.2.1 rfl, h.2.2.2.1, h.2.2.2.2⟩

end MakefileTools
